import Mathlib

/-!
Verification development for the OpenFaaS operator repository
(JadKHaddad/OpenFaaS-Operato.rs).

The reconciliation engine of `src/operator/controller/mod.rs` and the spec
projector of `src/crds/impls.rs` are embedded shallowly.  Kubernetes API
transport is modelled as reliable: every get/list/create/replace/delete and
every status read/write succeeds, so the error constructors of
`src/operator/controller/errors.rs` that merely wrap transport or
serialization failures are unreachable and are omitted from the embedded
error enums.  The cluster state visible to one reconcile pass is a `World`
(deployments, services, secret names, and the persisted status of the one
declaration under reconciliation); every externally visible API mutation is
recorded in a trace of `Op` values.

Rust strings are Lean `String`s; `str::split`, whitespace removal and the
byte-lexicographic `BTreeMap` order are re-implemented over character lists
so that all definitions evaluate inside the kernel.  Rust `HashMap` fields
(`env_vars`, `labels`, `annotations`) are embedded as association lists in
iteration order.  `i32` counters are embedded as `Int`.

A Rust `unimplemented!()` body (a panic) is represented by the `panic`
constructor of the step-result type, and by `none` where the source
signature promises a `bool`.
-/

namespace OperatoRs

/-- Update strategy of the operator (`UpdateStrategy` in
src/operator/controller/mod.rs): `OneWay` is the default. -/
inductive UpdateStrategy where
  | OneWay
  | Strategic
deriving DecidableEq, Repr

/-- Modelled from the spec: the closed set of status reason tags of section 7.
The Rust enum (`OpenFaasFunctionPossibleStatus`) is referenced throughout
src/operator/controller/mod.rs but its declaration is not among the source
files (src/crds/defs.rs is a stale revision lacking it). -/
inductive Reason where
  | Ok
  | InvalidCRDNamespace
  | InvalidFunctionNamespace
  | CPUQuantity
  | MemoryQuantity
  | DeploymentAlreadyExists
  | DeploymentNotReady
  | ServiceAlreadyExists
  | SecretsNotFound
deriving DecidableEq, Repr

/-- The two quantity-parse failures (`IntoQuantityError` in src/crds/defs.rs);
the payload is the offending string (the source carries the parse error of
the external kube_quantity crate). -/
inductive IntoQuantityError where
  | CPU (s : String)
  | Memory (s : String)
deriving DecidableEq, Repr

/-- Spec-to-Deployment failure below the owner-reference level
(`FunctionSpecIntoDeploymentError`; declaration missing from the stale
src/crds/defs.rs, usage in src/crds/impls.rs).  Only the quantity variant is
reachable in the reliable-serialization model. -/
inductive FunctionSpecIntoDeploymentError where
  | Quantity (e : IntoQuantityError)
deriving DecidableEq, Repr

/-- Crd-to-Deployment failure (`FunctionIntoDeploymentError`):
either the controller owner reference cannot be derived or the spec
projection failed. -/
inductive FunctionIntoDeploymentError where
  | OwnerReference
  | FunctionSpec (e : FunctionSpecIntoDeploymentError)
deriving DecidableEq, Repr

/-- Crd-to-Service failure (`FunctionIntoServiceError`). -/
inductive FunctionIntoServiceError where
  | OwnerReference
deriving DecidableEq, Repr

/-- CPU / memory request or limit strings (`FunctionResources` in
src/crds/defs.rs). -/
structure FunctionResources where
  memory : Option String
  cpu : Option String
deriving DecidableEq, Repr

/-- Characters allowed in the numeric part of a quantity. -/
def isQuantityNumChar (c : Char) : Bool := c.isDigit || c == '.'

/-- Characters allowed as the quantity suffix. -/
def isQuantitySuffixChar (c : Char) : Bool :=
  c == 'e' || c == 'E' || c == 'i' || c == 'n' || c == 'u' || c == 'm' ||
  c == 'k' || c == 'K' || c == 'M' || c == 'G' || c == 'T' || c == 'P'

/-- Modelled from the spec: quantity strings must match
`^([+-]?[0-9.]+)([eEinumkKMGTP][-+]?[0-9])$` (section 6, "Quantity format").
The actual parser lives in the external kube_quantity crate, outside this
repository; only success versus failure is relevant to the claims. -/
def quantityStringValid (s : String) : Bool :=
  let cs := s.toList
  let cs1 := match cs with
    | c :: rest => if c == '+' || c == '-' then rest else cs
    | [] => []
  let num := cs1.takeWhile isQuantityNumChar
  let rest := cs1.dropWhile isQuantityNumChar
  if num.isEmpty then false
  else
    match rest with
    | [sfx, d] => isQuantitySuffixChar sfx && d.isDigit
    | [sfx, sg, d] => isQuantitySuffixChar sfx && (sg == '+' || sg == '-') && d.isDigit
    | _ => false

/-- Result of parsing one optional quantity string; quantities are kept as
their source strings (normalization happens in the external crate and no
claim depends on the numeric value). -/
def tryQuantity (tag : String → IntoQuantityError) (o : Option String) :
    Except IntoQuantityError (Option String) :=
  match o with
  | none => Except.ok none
  | some s => if quantityStringValid s then Except.ok (some s) else Except.error (tag s)

/-- Parsed resources (`FunctionResourcesQuantity` in src/crds/defs.rs). -/
structure FunctionResourcesQuantity where
  memory : Option String
  cpu : Option String
deriving DecidableEq, Repr

/-- `TryFrom<&FunctionResources> for FunctionResourcesQuantity`
(src/crds/impls.rs): memory is parsed first, then cpu. -/
def FunctionResources.tryIntoQuantity (r : FunctionResources) :
    Except IntoQuantityError FunctionResourcesQuantity := do
  let m ← tryQuantity IntoQuantityError.Memory r.memory
  let c ← tryQuantity IntoQuantityError.CPU r.cpu
  Except.ok { memory := m, cpu := c }

/-- `FunctionResourcesQuantity::to_k8s_resources` (src/crds/impls.rs):
a `BTreeMap` holding the supplied keys; cpu sorts before memory. -/
def FunctionResourcesQuantity.to_k8s_resources (q : FunctionResourcesQuantity) :
    Option (List (String × String)) :=
  let resources :=
    (match q.cpu with | some c => [("cpu", c)] | none => []) ++
    (match q.memory with | some m => [("memory", m)] | none => [])
  if resources.isEmpty then none else some resources

/-- `FunctionResources::try_to_k8s_resources` (src/crds/impls.rs). -/
def FunctionResources.try_to_k8s_resources (r : FunctionResources) :
    Except IntoQuantityError (Option (List (String × String))) :=
  (r.tryIntoQuantity).map (fun q => q.to_k8s_resources)

/-- The declaration's spec (`OpenFaasFunctionSpec` in src/crds/defs.rs).
The `namespace` field is called `nspace` because `namespace` is a Lean
keyword.  `secrets_mount_path` is used by src/crds/impls.rs but missing from
the stale src/crds/defs.rs; it is included as the spec describes it
(optional string). -/
structure OpenFaasFunctionSpec where
  service : String
  image : String
  nspace : Option String
  env_process : Option String
  env_vars : Option (List (String × String))
  constraints : Option (List String)
  secrets : Option (List String)
  labels : Option (List (String × String))
  annotations : Option (List (String × String))
  limits : Option FunctionResources
  requests : Option FunctionResources
  read_only_root_filesystem : Option Bool
  secrets_mount_path : Option String
deriving DecidableEq, Repr

/-- Split a character list at every non-overlapping occurrence of `==`
(leftmost-first), the behavior of Rust's `str::split("==")`.  `acc` holds
the characters of the current part in reverse. -/
def splitEqEqChars : List Char → List Char → List (List Char)
  | '=' :: '=' :: rest, acc => acc.reverse :: splitEqEqChars rest []
  | c :: rest, acc => splitEqEqChars rest (c :: acc)
  | [], acc => [acc.reverse]

/-- Rust `c.split("==")` collected to a vector (src/crds/impls.rs,
`to_node_selector`). -/
def splitOnEqEq (c : String) : List String :=
  (splitEqEqChars c.toList []).map (fun l => String.mk l)

/-- `utils::remove_whitespace` (src/utils.rs): drop every whitespace
character. -/
def remove_whitespace (s : String) : String :=
  String.mk (s.toList.filter (fun c => !c.isWhitespace))

/-- Itertools `unique`: keep the first occurrence of every element. -/
def uniqueAux {α : Type} [DecidableEq α] (seen : List α) : List α → List α
  | [] => []
  | x :: xs => if x ∈ seen then uniqueAux seen xs else x :: uniqueAux (x :: seen) xs

/-- First-occurrence deduplication, the model of Itertools `unique`. -/
def uniqueList {α : Type} [DecidableEq α] (l : List α) : List α := uniqueAux [] l

/-- Byte-lexicographic character-list order, the `BTreeMap<String, _>` key
order for the ASCII keys used here. -/
def charListLt : List Char → List Char → Bool
  | [], [] => false
  | [], _ :: _ => true
  | _ :: _, [] => false
  | a :: as, b :: bs =>
    if a.toNat < b.toNat then true
    else if a.toNat = b.toNat then charListLt as bs
    else false

/-- String order used by the `BTreeMap` model. -/
def strLt (a b : String) : Bool := charListLt a.toList b.toList

/-- Sorted-insert with replacement, the model of `BTreeMap::insert`. -/
def btreeInsert (k v : String) : List (String × String) → List (String × String)
  | [] => [(k, v)]
  | (k', v') :: rest =>
    if strLt k k' then (k, v) :: (k', v') :: rest
    else if k = k' then (k, v) :: rest
    else (k', v') :: btreeInsert k v rest

/-- Collect key-value pairs into a `BTreeMap` (later values win on equal
keys), as Rust's `collect::<BTreeMap<_, _>>()`. -/
def btreeOfPairs (l : List (String × String)) : List (String × String) :=
  l.foldl (fun m kv => btreeInsert kv.1 kv.2 m) []

namespace OpenFaasFunctionSpec

/-- `OpenFaasFunctionSpec::to_name` (src/crds/impls.rs). -/
def to_name (s : OpenFaasFunctionSpec) : String := s.service

/-- `OpenFaasFunctionSpec::to_env_process_name` (src/crds/impls.rs). -/
def to_env_process_name (_s : OpenFaasFunctionSpec) : String := "fprocess"

/-- `OpenFaasFunctionSpec::get_constraints_vec` (src/crds/impls.rs). -/
def get_constraints_vec (s : OpenFaasFunctionSpec) : List String :=
  s.constraints.getD []

/-- `OpenFaasFunctionSpec::get_secrets_unique_vec` (src/crds/impls.rs). -/
def get_secrets_unique_vec (s : OpenFaasFunctionSpec) : List String :=
  uniqueList (s.secrets.getD [])

/-- `OpenFaasFunctionSpec::to_node_selector` (src/crds/impls.rs): split each
constraint on `==`, keep the splits of exactly two parts, remove whitespace
from both parts, deduplicate, collect into a `BTreeMap`. -/
def to_node_selector (s : OpenFaasFunctionSpec) : Option (List (String × String)) :=
  let constraints := s.get_constraints_vec
  if constraints.isEmpty then none
  else
    let split := constraints.map (fun c => splitOnEqEq c)
    let pairs := (split.filter (fun v => v.length == 2)).map
      (fun v => (remove_whitespace (v.headD ""), remove_whitespace (v.getD 1 "")))
    some (btreeOfPairs (uniqueList pairs))

/-- `OpenFaasFunctionSpec::try_to_limits` (src/crds/impls.rs). -/
def try_to_limits (s : OpenFaasFunctionSpec) :
    Except IntoQuantityError (Option (List (String × String))) :=
  match s.limits with
  | some l => l.try_to_k8s_resources
  | none => Except.ok none

/-- `OpenFaasFunctionSpec::try_to_requests` (src/crds/impls.rs). -/
def try_to_requests (s : OpenFaasFunctionSpec) :
    Except IntoQuantityError (Option (List (String × String))) :=
  match s.requests with
  | some r => r.try_to_k8s_resources
  | none => Except.ok none

end OpenFaasFunctionSpec

/-- Container environment entry (k8s `EnvVar`; the source always sets the
value). -/
structure EnvVar where
  name : String
  value : Option String
deriving DecidableEq, Repr

/-- The entries contributed by `env_vars` alone, in iteration order. -/
def envVarEntries (s : OpenFaasFunctionSpec) : List EnvVar :=
  (s.env_vars.getD []).map (fun kv => { name := kv.1, value := some kv.2 })

/-- `From<&OpenFaasFunctionSpec> for Vec<EnvVar>` (src/crds/impls.rs): the
`fprocess` entry is pushed first when `env_process` is set, then every
`env_vars` entry in iteration order. -/
def OpenFaasFunctionSpec.toEnvVars (s : OpenFaasFunctionSpec) : List EnvVar :=
  (match s.env_process with
   | some p => [{ name := s.to_env_process_name, value := some p }]
   | none => []) ++ envVarEntries s

/-- Controller owner reference (k8s `OwnerReference`), reduced to the two
identity fields the comparison depends on. -/
structure OwnerRef where
  name : String
  uid : String
deriving DecidableEq, Repr

/-- The one field of the k8s Deployment status the reconciler reads
(`status.ready_replicas`, an optional `i32`). -/
structure DeploymentStatus where
  ready_replicas : Option Int
deriving DecidableEq, Repr

/-- The fields of a cluster Deployment object the reconciler reads:
`metadata.name`, `metadata.owner_references` and `status.ready_replicas`
(src/operator/controller/mod.rs).  The projected pod content (environment,
node selector, resources) is embedded by the standalone projector functions
above and is never read back from the cluster by the reconciler. -/
structure K8sDeployment where
  name : String
  ownerRefs : List OwnerRef
  status : Option DeploymentStatus
deriving DecidableEq, Repr

/-- The fields of a cluster Service object the reconciler reads. -/
structure K8sService where
  name : String
  ownerRefs : List OwnerRef
deriving DecidableEq, Repr

/-- The declaration under reconciliation (`OpenFaaSFunction`): metadata
name, metadata namespace, metadata uid, and the spec. -/
structure OpenFaaSFunction where
  name : String
  metaNamespace : Option String
  uid : Option String
  spec : OpenFaasFunctionSpec
deriving DecidableEq, Repr

/-- `kube`'s `controller_owner_ref`: derivable exactly when the metadata uid
is present (the name always is, via `name_any`). -/
def OpenFaaSFunction.controller_owner_ref (c : OpenFaaSFunction) : Option OwnerRef :=
  c.uid.map (fun u => { name := c.name, uid := u })

/-- One externally visible API mutation. -/
inductive Op where
  | createDeployment (name : String)
  | replaceDeployment (name : String)
  | deleteDeployment (name : String)
  | createService (name : String)
  | deleteService (name : String)
  | writeStatus (r : Reason)
deriving DecidableEq, Repr

/-- Does the operation mutate a Deployment object? -/
def Op.touchesDeployments : Op → Bool
  | .createDeployment _ => true
  | .replaceDeployment _ => true
  | .deleteDeployment _ => true
  | _ => false

/-- Does the operation mutate a Service object? -/
def Op.touchesServices : Op → Bool
  | .createService _ => true
  | .deleteService _ => true
  | _ => false

/-- Cluster state visible to one reconcile pass: the Deployments, Services
and Secret names of the function namespace, plus the persisted status
(reason tag of the single Ready condition) of the declaration under
reconciliation.  Modelled from the spec: the condition shape and the
`possible_status` accessor of the persisted status are missing from the
stale src/crds/defs.rs, so the persisted status is carried directly as its
reason tag. -/
structure World where
  deployments : List K8sDeployment
  services : List K8sService
  secretNames : List String
  crdStatus : Option Reason
deriving DecidableEq, Repr

/-- `kube` controller action: await the next change or requeue after the
given number of seconds. -/
inductive KAction where
  | awaitChange
  | requeueSecs (n : Nat)
deriving DecidableEq, Repr

/-- Outcome of one controller subroutine: a value plus the evolved world and
the trace of API mutations, a typed error (the world mutated so far
persists), or a Rust panic (`unimplemented!()`). -/
inductive StepRes (ε α : Type) where
  | ok (a : α) (w : World) (ops : List Op)
  | err (e : ε) (w : World) (ops : List Op)
  | panic (w : World) (ops : List Op)
deriving DecidableEq, Repr

/-- `CreateDeploymentAction` (src/operator/controller/mod.rs). -/
inductive CreateDeploymentAction where
  | Create
  | Replace
deriving DecidableEq, Repr

/-- Reachable constructors of `CreateDeploymentError`
(src/operator/controller/errors.rs); transport and status-write wrappers
are unreachable in the reliable-API model. -/
inductive CreateDeploymentError where
  | Generate (e : FunctionIntoDeploymentError)
deriving DecidableEq, Repr

/-- Reachable constructors of `CheckDeploymentError`. -/
inductive CheckDeploymentError where
  | Create (e : CreateDeploymentError)
deriving DecidableEq, Repr

/-- Reachable constructors of `DeploymentError`. -/
inductive DeploymentError where
  | OwnerReference
  | Create (e : CreateDeploymentError)
  | Check (e : CheckDeploymentError)
deriving DecidableEq, Repr

/-- Reachable constructors of `CreateServiceError`. -/
inductive CreateServiceError where
  | Generate (e : FunctionIntoServiceError)
deriving DecidableEq, Repr

/-- Reachable constructors of `ServiceError`. -/
inductive ServiceError where
  | OwnerReference
  | Create (e : CreateServiceError)
deriving DecidableEq, Repr

/-- Reachable constructors of `ApplyError`. -/
inductive ApplyError where
  | Deployment (e : DeploymentError)
  | Service (e : ServiceError)
deriving DecidableEq, Repr

/-- `ReconcileError` (src/operator/controller/errors.rs). -/
inductive ReconcileError where
  | Namespace
  | Apply (e : ApplyError)
deriving DecidableEq, Repr

/-- `OpenFaasFunctionSpec::deployment_needs_recreation`
(src/crds/impls.rs lines 90-101): the body is `unimplemented!()`, a Rust
panic, so no boolean is ever produced; `none` models the panic. -/
def OpenFaasFunctionSpec.deployment_needs_recreation
    (_s : OpenFaasFunctionSpec) (_d : K8sDeployment) : Option Bool :=
  none

/-- Projection of the spec to a Deployment minus owner references
(`TryFrom<&OpenFaasFunctionSpec> for Deployment`, src/crds/impls.rs):
the fallible stages are the quantity parses, limits before requests
(evaluation order of `ResourceRequirements::try_from`), memory before cpu
within each. -/
def deploymentTryFromSpec (s : OpenFaasFunctionSpec) :
    Except FunctionSpecIntoDeploymentError K8sDeployment :=
  match s.try_to_limits with
  | Except.error e => Except.error (FunctionSpecIntoDeploymentError.Quantity e)
  | Except.ok _ =>
    match s.try_to_requests with
    | Except.error e => Except.error (FunctionSpecIntoDeploymentError.Quantity e)
    | Except.ok _ => Except.ok { name := s.to_name, ownerRefs := [], status := none }

/-- `TryFrom<&OpenFaaSFunction> for Deployment` (src/crds/impls.rs): derive
the controller owner reference first, then project the spec, then stamp the
reference. -/
def deploymentTryFromCrd (crd : OpenFaaSFunction) :
    Except FunctionIntoDeploymentError K8sDeployment :=
  match crd.controller_owner_ref with
  | none => Except.error FunctionIntoDeploymentError.OwnerReference
  | some oref =>
    match deploymentTryFromSpec crd.spec with
    | Except.error e => Except.error (FunctionIntoDeploymentError.FunctionSpec e)
    | Except.ok dep => Except.ok { dep with ownerRefs := [oref] }

/-- `TryFrom<&OpenFaaSFunction> for Service` (src/crds/impls.rs): the spec
projection of a Service is infallible, so only the owner reference can
fail. -/
def serviceTryFromCrd (crd : OpenFaaSFunction) :
    Except FunctionIntoServiceError K8sService :=
  match crd.controller_owner_ref with
  | none => Except.error FunctionIntoServiceError.OwnerReference
  | some oref => Except.ok { name := crd.spec.to_name, ownerRefs := [oref] }

/-- `From<&FunctionIntoDeploymentError> for Option<status>`
(src/crds/impls.rs lines 1137-1149): only quantity failures translate to a
status reason, keeping the cpu/memory origin. -/
def statusFromDeploymentError (e : FunctionIntoDeploymentError) : Option Reason :=
  match e with
  | .FunctionSpec (.Quantity (.Memory _)) => some Reason.MemoryQuantity
  | .FunctionSpec (.Quantity (.CPU _)) => some Reason.CPUQuantity
  | _ => none

/-- `OperatorInner::replace_status` (src/operator/controller/mod.rs lines
158-195): skip the write when the persisted status already carries the
target reason, otherwise replace it through the status subresource. -/
def replace_status (w : World) (status : Reason) : World × List Op :=
  match w.crdStatus with
  | some current =>
    if status = current then (w, [])
    else ({ w with crdStatus := some status }, [Op.writeStatus status])
  | none => ({ w with crdStatus := some status }, [Op.writeStatus status])

/-- `OperatorInner::check_resource_namespace` (lines 197-227). -/
def check_resource_namespace (functions_namespace crd_namespace : String)
    (w : World) : Option KAction × World × List Op :=
  if crd_namespace ≠ functions_namespace then
    let p := replace_status w Reason.InvalidCRDNamespace
    (some KAction.awaitChange, p.1, p.2)
  else (none, w, [])

/-- `OperatorInner::check_function_namespace` (lines 229-269). -/
def check_function_namespace (functions_namespace : String)
    (crd : OpenFaaSFunction) (w : World) : Option KAction × World × List Op :=
  match crd.spec.nspace with
  | none => (none, w, [])
  | some function_namespace =>
    if function_namespace ≠ functions_namespace then
      let p := replace_status w Reason.InvalidFunctionNamespace
      (some KAction.awaitChange, p.1, p.2)
    else (none, w, [])

/-- `OperatorInner::check_secrets` (lines 539-588): the unique secret names
of the spec minus the Secret names present in the function namespace. -/
def check_secrets (crd : OpenFaaSFunction) (w : World) :
    Option KAction × World × List Op :=
  if crd.spec.get_secrets_unique_vec.isEmpty then (none, w, [])
  else
    if (crd.spec.get_secrets_unique_vec.filter
        (fun sec => !w.secretNames.contains sec)).isEmpty then (none, w, [])
    else
      let p := replace_status w Reason.SecretsNotFound
      (some KAction.awaitChange, p.1, p.2)

/-- `OperatorInner::create_deployment` (lines 427-500): check secrets, then
project; on a translatable projection error write the corresponding status
and propagate the error, on an untranslatable one propagate silently; on
success create or replace and stop with await-next-change. -/
def create_deployment (crd : OpenFaaSFunction) (act : CreateDeploymentAction)
    (w : World) : StepRes CreateDeploymentError (Option KAction) :=
  match check_secrets crd w with
  | (some a, w1, ops1) => .ok (some a) w1 ops1
  | (none, w1, ops1) =>
    match deploymentTryFromCrd crd with
    | Except.ok deployment =>
      match act with
      | .Create =>
        .ok (some KAction.awaitChange)
          { w1 with deployments := w1.deployments ++ [deployment] }
          (ops1 ++ [Op.createDeployment deployment.name])
      | .Replace =>
        let replaced := w1.deployments.map
          (fun old => if old.name == crd.spec.to_name then deployment else old)
        .ok (some KAction.awaitChange)
          { w1 with deployments := replaced }
          (ops1 ++ [Op.replaceDeployment crd.spec.to_name])
    | Except.error e =>
      match statusFromDeploymentError e with
      | some error_status =>
        let p := replace_status w1 error_status
        .err (CreateDeploymentError.Generate e) p.1 (ops1 ++ p.2)
      | none => .err (CreateDeploymentError.Generate e) w1 ops1

/-- `OperatorInner::check_existing_deployment` (lines 324-425): ownership
gate, readiness gate, then the update strategy; under `OneWay` the drift
detector is consulted — and panics (`unimplemented!()`). -/
def check_existing_deployment (strategy : UpdateStrategy)
    (crd : OpenFaaSFunction) (crd_oref : OwnerRef) (deployment : K8sDeployment)
    (w : World) : StepRes CheckDeploymentError (Option KAction) :=
  if deployment.ownerRefs.contains crd_oref then
    match deployment.status with
    | none =>
      let p := replace_status w Reason.DeploymentNotReady
      .ok (some KAction.awaitChange) p.1 p.2
    | some status =>
      match status.ready_replicas with
      | none =>
        let p := replace_status w Reason.DeploymentNotReady
        .ok (some KAction.awaitChange) p.1 p.2
      | some _replicas =>
        match strategy with
        | .OneWay =>
          match crd.spec.deployment_needs_recreation deployment with
          | none => .panic w []
          | some true =>
            match create_deployment crd CreateDeploymentAction.Replace w with
            | .ok (some a) w' ops => .ok (some a) w' ops
            | .ok none w' ops => .ok none w' ops
            | .err e w' ops => .err (CheckDeploymentError.Create e) w' ops
            | .panic w' ops => .panic w' ops
          | some false => .ok none w []
        | .Strategic => .ok none w []
  else
    let p := replace_status w Reason.DeploymentAlreadyExists
    .ok (some KAction.awaitChange) p.1 p.2

/-- `OperatorInner::delete_old_deployments` (lines 502-537): delete every
Deployment carrying the controller owner reference under a name other than
the current `spec.service`. -/
def delete_old_deployments (crd : OpenFaaSFunction) (crd_oref : OwnerRef)
    (w : World) : World × List Op :=
  ({ w with deployments := w.deployments.filter (fun d => !(d.name != crd.spec.to_name && d.ownerRefs.contains crd_oref)) },
   (w.deployments.filter
      (fun d => d.name != crd.spec.to_name && d.ownerRefs.contains crd_oref)).map
     (fun d => Op.deleteDeployment d.name))

/-- `OperatorInner::check_deployment` (lines 271-322): fetch by name, derive
the owner reference, run the existing/create branch, then sweep old owned
Deployments. -/
def check_deployment (strategy : UpdateStrategy) (crd : OpenFaaSFunction)
    (w : World) : StepRes DeploymentError (Option KAction) :=
  let deployment_name := crd.spec.to_name
  let deployment_opt := w.deployments.find? (fun d => d.name == deployment_name)
  match crd.controller_owner_ref with
  | none => .err DeploymentError.OwnerReference w []
  | some crd_oref =>
    let branch : StepRes DeploymentError (Option KAction) :=
      match deployment_opt with
      | some deployment =>
        match check_existing_deployment strategy crd crd_oref deployment w with
        | .ok a w' ops => .ok a w' ops
        | .err e w' ops => .err (DeploymentError.Check e) w' ops
        | .panic w' ops => .panic w' ops
      | none =>
        match create_deployment crd CreateDeploymentAction.Create w with
        | .ok a w' ops => .ok a w' ops
        | .err e w' ops => .err (DeploymentError.Create e) w' ops
        | .panic w' ops => .panic w' ops
    match branch with
    | .ok (some a) w' ops => .ok (some a) w' ops
    | .ok none w' ops =>
      let p := delete_old_deployments crd crd_oref w'
      .ok none p.1 (ops ++ p.2)
    | .err e w' ops => .err e w' ops
    | .panic w' ops => .panic w' ops

/-- `OperatorInner::check_existing_service` (lines 640-671): ownership gate
only. -/
def check_existing_service (_crd : OpenFaaSFunction) (crd_oref : OwnerRef)
    (service : K8sService) (w : World) : Option KAction × World × List Op :=
  if !(service.ownerRefs.contains crd_oref) then
    let p := replace_status w Reason.ServiceAlreadyExists
    (some KAction.awaitChange, p.1, p.2)
  else (none, w, [])

/-- `OperatorInner::create_service` (lines 673-691): project and create,
then continue — `Ok(None)`, not an action. -/
def create_service (crd : OpenFaaSFunction) (w : World) :
    StepRes CreateServiceError (Option KAction) :=
  match serviceTryFromCrd crd with
  | Except.error e => .err (CreateServiceError.Generate e) w []
  | Except.ok service =>
    .ok none { w with services := w.services ++ [service] }
      [Op.createService service.name]

/-- `OperatorInner::delete_old_services` (lines 693-728). -/
def delete_old_services (crd : OpenFaaSFunction) (crd_oref : OwnerRef)
    (w : World) : World × List Op :=
  ({ w with services := w.services.filter (fun s => !(s.name != crd.spec.to_name && s.ownerRefs.contains crd_oref)) },
   (w.services.filter
      (fun s => s.name != crd.spec.to_name && s.ownerRefs.contains crd_oref)).map
     (fun s => Op.deleteService s.name))

/-- `OperatorInner::check_service` (lines 590-638). -/
def check_service (crd : OpenFaaSFunction) (w : World) :
    StepRes ServiceError (Option KAction) :=
  let service_name := crd.spec.to_name
  let service_opt := w.services.find? (fun s => s.name == service_name)
  match crd.controller_owner_ref with
  | none => .err ServiceError.OwnerReference w []
  | some crd_oref =>
    let branch : StepRes ServiceError (Option KAction) :=
      match service_opt with
      | some service =>
        let t := check_existing_service crd crd_oref service w
        .ok t.1 t.2.1 t.2.2
      | none =>
        match create_service crd w with
        | .ok a w' ops => .ok a w' ops
        | .err e w' ops => .err (ServiceError.Create e) w' ops
        | .panic w' ops => .panic w' ops
    match branch with
    | .ok (some a) w' ops => .ok (some a) w' ops
    | .ok none w' ops =>
      let p := delete_old_services crd crd_oref w'
      .ok none p.1 (ops ++ p.2)
    | .err e w' ops => .err e w' ops
    | .panic w' ops => .panic w' ops

/-- `OperatorInner::set_ready_status` (lines 730-751): write the `Ok`
reason and continue (`Ok(None)`). -/
def set_ready_status (w : World) : Option KAction × World × List Op :=
  let p := replace_status w Reason.Ok
  (none, p.1, p.2)

/-- `OperatorInner::apply` (lines 99-156): resource-namespace check,
function-namespace check, Deployment subreconciler, Service subreconciler,
ready-status write, each short-circuiting with its action; on falling
through, await the next change. -/
def apply (strategy : UpdateStrategy) (functions_namespace : String)
    (crd : OpenFaaSFunction) (crd_namespace : String) (w : World) :
    StepRes ApplyError KAction :=
  match check_resource_namespace functions_namespace crd_namespace w with
  | (some a, w1, ops1) => .ok a w1 ops1
  | (none, w1, ops1) =>
    match check_function_namespace functions_namespace crd w1 with
    | (some a, w2, ops2) => .ok a w2 (ops1 ++ ops2)
    | (none, w2, ops2) =>
      match check_deployment strategy crd w2 with
      | .ok (some a) w3 ops3 => .ok a w3 (ops1 ++ ops2 ++ ops3)
      | .err e w3 ops3 => .err (ApplyError.Deployment e) w3 (ops1 ++ ops2 ++ ops3)
      | .panic w3 ops3 => .panic w3 (ops1 ++ ops2 ++ ops3)
      | .ok none w3 ops3 =>
        match check_service crd w3 with
        | .ok (some a) w4 ops4 => .ok a w4 (ops1 ++ ops2 ++ ops3 ++ ops4)
        | .err e w4 ops4 => .err (ApplyError.Service e) w4 (ops1 ++ ops2 ++ ops3 ++ ops4)
        | .panic w4 ops4 => .panic w4 (ops1 ++ ops2 ++ ops3 ++ ops4)
        | .ok none w4 ops4 =>
          match set_ready_status w4 with
          | (some a, w5, ops5) => .ok a w5 (ops1 ++ ops2 ++ ops3 ++ ops4 ++ ops5)
          | (none, w5, ops5) =>
            .ok KAction.awaitChange w5 (ops1 ++ ops2 ++ ops3 ++ ops4 ++ ops5)

/-- `OperatorInner::reconcile` (lines 85-97): abort without namespace,
otherwise apply. -/
def reconcile (strategy : UpdateStrategy) (functions_namespace : String)
    (crd : OpenFaaSFunction) (w : World) : StepRes ReconcileError KAction :=
  match crd.metaNamespace with
  | none => .err ReconcileError.Namespace w []
  | some crd_namespace =>
    match apply strategy functions_namespace crd crd_namespace w with
    | .ok a w' ops => .ok a w' ops
    | .err e w' ops => .err (ReconcileError.Apply e) w' ops
    | .panic w' ops => .panic w' ops

/-- `on_error` (src/operator/controller/mod.rs lines 837-845): every
reconcile error requeues after 10 seconds. -/
def on_error (_e : ReconcileError) : KAction := KAction.requeueSecs 10

/-- One sub-step of the reconcile driver: continue (`ok none`), stop with an
action (`ok (some a)`), fail, or panic. -/
def ApplyStep : Type := World → StepRes ApplyError (Option KAction)

/-- The resource-namespace check as a driver sub-step (4.D.1). -/
def stepResourceNamespace (fns cns : String) : ApplyStep := fun w =>
  let t := check_resource_namespace fns cns w
  .ok t.1 t.2.1 t.2.2

/-- The function-namespace check as a driver sub-step (4.D.2). -/
def stepFunctionNamespace (fns : String) (crd : OpenFaaSFunction) : ApplyStep := fun w =>
  let t := check_function_namespace fns crd w
  .ok t.1 t.2.1 t.2.2

/-- The Deployment subreconciler as a driver sub-step (4.E). -/
def stepDeployment (strategy : UpdateStrategy) (crd : OpenFaaSFunction) : ApplyStep := fun w =>
  match check_deployment strategy crd w with
  | .ok a w' ops => .ok a w' ops
  | .err e w' ops => .err (ApplyError.Deployment e) w' ops
  | .panic w' ops => .panic w' ops

/-- The Service subreconciler as a driver sub-step (4.F). -/
def stepService (crd : OpenFaaSFunction) : ApplyStep := fun w =>
  match check_service crd w with
  | .ok a w' ops => .ok a w' ops
  | .err e w' ops => .err (ApplyError.Service e) w' ops
  | .panic w' ops => .panic w' ops

/-- The status-writer(`Ok`) as a driver sub-step. -/
def stepReadyStatus : ApplyStep := fun w =>
  let t := set_ready_status w
  .ok t.1 t.2.1 t.2.2

/-- Run driver sub-steps in order, short-circuiting at the first one that
returns an action, fails or panics; when every step continues the run ends
with await-next-change. -/
def runSteps : List ApplyStep → World → StepRes ApplyError KAction
  | [], w => .ok KAction.awaitChange w []
  | step :: rest, w =>
    match step w with
    | .ok none w' ops =>
      match runSteps rest w' with
      | .ok a w'' ops' => .ok a w'' (ops ++ ops')
      | .err e w'' ops' => .err e w'' (ops ++ ops')
      | .panic w'' ops' => .panic w'' (ops ++ ops')
    | .ok (some a) w' ops => .ok a w' ops
    | .err e w' ops => .err e w' ops
    | .panic w' ops => .panic w' ops

/-- Modelled from the spec: the reconcile driver of section 4.G, the chain
4.D.1 → 4.D.2 → 4.E → 4.F → status-writer(`Ok`) short-circuiting at the
first sub-step that returns an action. -/
def applyChain (strategy : UpdateStrategy) (fns : String)
    (crd : OpenFaaSFunction) (cns : String) (w : World) :
    StepRes ApplyError KAction :=
  runSteps
    [stepResourceNamespace fns cns, stepFunctionNamespace fns crd,
     stepDeployment strategy crd, stepService crd, stepReadyStatus] w

/-- A spec carrying only the required fields. -/
def specEx : OpenFaasFunctionSpec :=
  { service := "echo", image := "ghcr.io/echo:1", nspace := none,
    env_process := none, env_vars := none, constraints := none,
    secrets := none, labels := none, annotations := none, limits := none,
    requests := none, read_only_root_filesystem := none,
    secrets_mount_path := none }

/-- A declaration for `specEx` living in the configured namespace. -/
def crdEx : OpenFaaSFunction :=
  { name := "echo", metaNamespace := some "openfaas-fn", uid := some "uid-1",
    spec := specEx }

/-- The controller owner reference of `crdEx`. -/
def orefEx : OwnerRef := { name := "echo", uid := "uid-1" }

/-- An owned Deployment with one ready replica. -/
def readyDepEx : K8sDeployment :=
  { name := "echo", ownerRefs := [orefEx],
    status := some { ready_replicas := some 1 } }

/-- An owned Deployment whose status reports zero ready replicas. -/
def zeroReadyDepEx : K8sDeployment :=
  { name := "echo", ownerRefs := [orefEx],
    status := some { ready_replicas := some 0 } }

/-- An owned Deployment with no status yet. -/
def noStatusDepEx : K8sDeployment :=
  { name := "echo", ownerRefs := [orefEx], status := none }

/-- A same-named Deployment without the controller owner reference. -/
def foreignDepEx : K8sDeployment :=
  { name := "echo", ownerRefs := [], status := some { ready_replicas := some 1 } }

/-- An owned Service. -/
def svcEx : K8sService := { name := "echo", ownerRefs := [orefEx] }

/-- A same-named Service without the controller owner reference. -/
def foreignSvcEx : K8sService := { name := "echo", ownerRefs := [] }

/-- The empty cluster with no persisted status. -/
def emptyWorld : World :=
  { deployments := [], services := [], secretNames := [], crdStatus := none }

/-- A fully converged cluster for `crdEx`. -/
def convergedWorld : World :=
  { deployments := [readyDepEx], services := [svcEx], secretNames := [],
    crdStatus := some Reason.Ok }

/-- The status writer leaves the persisted status at the target reason. -/
theorem replace_status_fst_crdStatus (w : World) (r : Reason) :
    ((replace_status w r).1).crdStatus = some r := by
  unfold replace_status
  cases h : w.crdStatus with
  | none => simp
  | some current =>
    by_cases hr : r = current
    · simp [hr, h]
    · simp [hr]

/-- The status writer does not touch Deployments. -/
theorem replace_status_fst_deployments (w : World) (r : Reason) :
    ((replace_status w r).1).deployments = w.deployments := by
  unfold replace_status
  cases w.crdStatus with
  | none => simp
  | some current =>
    by_cases hr : r = current
    · simp [hr]
    · simp [hr]

/-- The status writer does not touch Services. -/
theorem replace_status_fst_services (w : World) (r : Reason) :
    ((replace_status w r).1).services = w.services := by
  unfold replace_status
  cases w.crdStatus with
  | none => simp
  | some current =>
    by_cases hr : r = current
    · simp [hr]
    · simp [hr]

/-- Every operation the status writer emits is a status write of the target
reason. -/
theorem replace_status_ops (w : World) (r : Reason) :
    ∀ op ∈ (replace_status w r).2, op = Op.writeStatus r := by
  unfold replace_status
  cases w.crdStatus with
  | none => simp
  | some current =>
    by_cases hr : r = current
    · simp [hr]
    · simp [hr]

/-- When every unique secret name exists in the namespace, the secrets check
continues without any effect. -/
theorem check_secrets_pass (crd : OpenFaaSFunction) (w : World)
    (h : ∀ sec ∈ crd.spec.get_secrets_unique_vec, sec ∈ w.secretNames) :
    check_secrets crd w = (none, w, []) := by
  unfold check_secrets
  cases hl : crd.spec.get_secrets_unique_vec with
  | nil => simp
  | cons a as =>
    have ha : a ∈ w.secretNames := h a (by rw [hl]; exact List.mem_cons_self a as)
    have has : ∀ x ∈ as, x ∈ w.secretNames :=
      fun x hx => h x (by rw [hl]; exact List.mem_cons_of_mem a hx)
    simp [ha]
    exact has

/-- When some unique secret name is absent, the secrets check stops with
await-next-change after ensuring the `SecretsNotFound` status. -/
theorem check_secrets_missing (crd : OpenFaaSFunction) (w : World) (sec : String)
    (hmem : sec ∈ crd.spec.get_secrets_unique_vec) (habs : sec ∉ w.secretNames) :
    check_secrets crd w =
      (some KAction.awaitChange, (replace_status w Reason.SecretsNotFound).1,
       (replace_status w Reason.SecretsNotFound).2) := by
  unfold check_secrets
  cases hl : crd.spec.get_secrets_unique_vec with
  | nil => rw [hl] at hmem; cases hmem
  | cons a as =>
    have hmem' : sec ∈ a :: as := by rw [hl] at hmem; exact hmem
    have hc1 : ¬ ((a :: as).isEmpty = true) := by simp
    have hcond : ¬ (((a :: as).filter (fun s => !w.secretNames.contains s)).isEmpty = true) := by
      intro hempty
      rw [List.isEmpty_iff] at hempty
      rw [List.filter_eq_nil_iff] at hempty
      have h2 := hempty sec hmem'
      simp at h2
      exact habs h2
    rw [if_neg hc1, if_neg hcond]

/-- Claim C1: the spec's drift detector — extract the last-applied-spec
annotated previous spec, recreate on absence or corruption, otherwise
compare structural equality — is never executed by the code:
`deployment_needs_recreation` is `unimplemented!()` and panics, so on every
owned ready Deployment the `OneWay` reconcile path panics instead of
returning the specified boolean. -/
theorem c1_drift_detector_unimplemented :
    (∀ (s : OpenFaasFunctionSpec) (d : K8sDeployment),
      s.deployment_needs_recreation d = none)
    ∧ check_existing_deployment UpdateStrategy.OneWay crdEx orefEx readyDepEx
        convergedWorld = .panic convergedWorld [] :=
  ⟨fun _ _ => rfl, by decide⟩

/-- Claim C2 (amended): for an owned same-named Deployment the reconciler
writes `DeploymentNotReady` and stops with await-next-change iff the
Deployment's `readyReplicas` field is absent (no status, or status without
the field); whenever the field is present — including the value 0 — the
readiness gate passes (under the `Strategic` strategy the check returns the
continuation). -/
theorem c2_notready_iff_ready_replicas_absent (strategy : UpdateStrategy)
    (crd : OpenFaaSFunction) (oref : OwnerRef) (dep : K8sDeployment) (w : World)
    (howned : dep.ownerRefs.contains oref = true) :
    ((∃ w' ops, check_existing_deployment strategy crd oref dep w =
        StepRes.ok (some KAction.awaitChange) w' ops
        ∧ w'.crdStatus = some Reason.DeploymentNotReady)
      ↔ dep.status.bind (fun st => st.ready_replicas) = none)
    ∧ (dep.status.bind (fun st => st.ready_replicas) ≠ none →
        check_existing_deployment UpdateStrategy.Strategic crd oref dep w =
          .ok none w []) := by
  have hmemo : oref ∈ dep.ownerRefs := by simpa using howned
  constructor
  · cases hst : dep.status with
    | none =>
      simp [check_existing_deployment, hmemo, hst, replace_status_fst_crdStatus]
    | some st =>
      cases hrr : st.ready_replicas with
      | none =>
        simp [check_existing_deployment, hmemo, hst, hrr, replace_status_fst_crdStatus]
      | some n =>
        cases strategy <;>
          simp [check_existing_deployment, hmemo, hst, hrr,
            OpenFaasFunctionSpec.deployment_needs_recreation]
  · intro hne
    cases hst : dep.status with
    | none => rw [hst] at hne; simp at hne
    | some st =>
      cases hrr : st.ready_replicas with
      | none => rw [hst] at hne; simp [hrr] at hne
      | some n =>
        simp [check_existing_deployment, hmemo, hst, hrr]

/-- Witness for claim C2's amended theorem: an owned Deployment without
status is reported not ready, and an owned Deployment with one ready
replica passes the gate. -/
theorem c2_notready_witness :
    (∃ w' ops, check_existing_deployment UpdateStrategy.OneWay crdEx orefEx
        noStatusDepEx emptyWorld = StepRes.ok (some KAction.awaitChange) w' ops
        ∧ w'.crdStatus = some Reason.DeploymentNotReady)
    ∧ check_existing_deployment UpdateStrategy.Strategic crdEx orefEx readyDepEx
        emptyWorld = .ok none emptyWorld [] :=
  ⟨((c2_notready_iff_ready_replicas_absent UpdateStrategy.OneWay crdEx orefEx
      noStatusDepEx emptyWorld (by decide)).1).mpr (by decide),
   (c2_notready_iff_ready_replicas_absent UpdateStrategy.OneWay crdEx orefEx
      readyDepEx emptyWorld (by decide)).2 (by decide)⟩

/-- Counterexample to claim C2 as stated: an owned Deployment whose status
reports zero ready replicas does not produce a `DeploymentNotReady` stop;
the readiness gate passes and the check returns the continuation. -/
theorem c2_zero_ready_counterexample :
    check_existing_deployment UpdateStrategy.Strategic crdEx orefEx
      zeroReadyDepEx emptyWorld = .ok none emptyWorld []
    ∧ zeroReadyDepEx.status = some { ready_replicas := some 0 } := by
  decide

/-- Claim C5: entering the Deployment creation path with some unique secret
name missing from the function namespace creates no Deployment, ensures the
`SecretsNotFound` status and stops with await-next-change. -/
theorem c5_missing_secret_blocks_creation (crd : OpenFaaSFunction)
    (act : CreateDeploymentAction) (w : World) (sec : String)
    (hmem : sec ∈ crd.spec.get_secrets_unique_vec) (habs : sec ∉ w.secretNames) :
    create_deployment crd act w =
      StepRes.ok (some KAction.awaitChange)
        (replace_status w Reason.SecretsNotFound).1
        (replace_status w Reason.SecretsNotFound).2
    ∧ (replace_status w Reason.SecretsNotFound).1.deployments = w.deployments
    ∧ (replace_status w Reason.SecretsNotFound).1.crdStatus =
        some Reason.SecretsNotFound
    ∧ ∀ op ∈ (replace_status w Reason.SecretsNotFound).2,
        op = Op.writeStatus Reason.SecretsNotFound := by
  refine ⟨?_, replace_status_fst_deployments w Reason.SecretsNotFound,
    replace_status_fst_crdStatus w Reason.SecretsNotFound,
    replace_status_ops w Reason.SecretsNotFound⟩
  unfold create_deployment
  rw [check_secrets_missing crd w sec hmem habs]

/-- Witness for claim C5 at a declaration naming one absent secret. -/
theorem c5_missing_secret_witness :
    create_deployment { crdEx with spec := { specEx with secrets := some ["missing"] } }
      CreateDeploymentAction.Create emptyWorld =
      StepRes.ok (some KAction.awaitChange)
        (replace_status emptyWorld Reason.SecretsNotFound).1
        (replace_status emptyWorld Reason.SecretsNotFound).2 :=
  (c5_missing_secret_blocks_creation _ CreateDeploymentAction.Create emptyWorld
    "missing" (by decide) (by decide)).1

/-- Claim C6: a failed spec-to-Deployment projection in the creation path
writes `CPUQuantity` for a cpu parse failure and `MemoryQuantity` for a
memory parse failure before propagating the error, and propagates every
other projection failure (the missing owner reference) without a status
write. -/
theorem c6_projection_error_status (crd : OpenFaaSFunction)
    (act : CreateDeploymentAction) (w : World) (e : FunctionIntoDeploymentError)
    (hsec : ∀ sec ∈ crd.spec.get_secrets_unique_vec, sec ∈ w.secretNames)
    (herr : deploymentTryFromCrd crd = Except.error e) :
    create_deployment crd act w =
      (match statusFromDeploymentError e with
       | some r => StepRes.err (CreateDeploymentError.Generate e)
           (replace_status w r).1 (replace_status w r).2
       | none => StepRes.err (CreateDeploymentError.Generate e) w [])
    ∧ statusFromDeploymentError e =
      (match e with
       | .FunctionSpec (.Quantity (.CPU _)) => some Reason.CPUQuantity
       | .FunctionSpec (.Quantity (.Memory _)) => some Reason.MemoryQuantity
       | .OwnerReference => none) := by
  constructor
  · unfold create_deployment
    rw [check_secrets_pass crd w hsec, herr]
    cases hse : statusFromDeploymentError e <;> simp [hse]
  · cases e with
    | OwnerReference => rfl
    | FunctionSpec fe =>
      cases fe with
      | Quantity qe => cases qe <;> rfl

/-- Witness for claim C6 at a declaration with an unparseable cpu limit. -/
theorem c6_projection_error_witness :
    create_deployment
      { crdEx with spec := { specEx with limits := some { memory := none, cpu := some "bad" } } }
      CreateDeploymentAction.Create emptyWorld =
      StepRes.err
        (CreateDeploymentError.Generate
          (FunctionIntoDeploymentError.FunctionSpec
            (FunctionSpecIntoDeploymentError.Quantity (IntoQuantityError.CPU "bad"))))
        (replace_status emptyWorld Reason.CPUQuantity).1
        (replace_status emptyWorld Reason.CPUQuantity).2 :=
  (c6_projection_error_status
    { crdEx with spec := { specEx with limits := some { memory := none, cpu := some "bad" } } }
    CreateDeploymentAction.Create emptyWorld
    (FunctionIntoDeploymentError.FunctionSpec
      (FunctionSpecIntoDeploymentError.Quantity (IntoQuantityError.CPU "bad")))
    (by intro sec hs; rw [show ({ crdEx with spec := { specEx with limits := some { memory := none, cpu := some "bad" } } } : OpenFaaSFunction).spec.get_secrets_unique_vec = [] from rfl] at hs; cases hs)
    rfl).1

/-- Strip whitespace from both ends of a string, the reading of "stripping
whitespace from both sides" in claim C8. -/
def trimStr (s : String) : String :=
  String.mk ((s.toList.dropWhile Char.isWhitespace).reverse.dropWhile
    Char.isWhitespace).reverse

/-- Rejoin split parts with `==`. -/
def intercalateEqEq : List String → String
  | [] => ""
  | [x] => x
  | x :: y :: xs => x ++ "==" ++ intercalateEqEq (y :: xs)

/-- Split a string at the first occurrence of `==`, the reading of claim
C8; strings without `==` yield nothing. -/
def splitOnFirstEqEq (c : String) : Option (String × String) :=
  match splitOnEqEq c with
  | a :: b :: rest => some (a, intercalateEqEq (b :: rest))
  | _ => none

/-- The node selector as claim C8 words it: split each constraint at the
first `==`, strip whitespace from both sides, drop entries without `==`,
deduplicate. -/
def nodeSelectorClaimed (s : OpenFaasFunctionSpec) : Option (List (String × String)) :=
  let constraints := s.get_constraints_vec
  if constraints.isEmpty then none
  else
    let pairs := constraints.filterMap
      (fun c => (splitOnFirstEqEq c).map (fun p => (trimStr p.1, trimStr p.2)))
    some (btreeOfPairs (uniqueList pairs))

/-- The node selector as amended: split each constraint on `==` and keep
only entries that split into exactly two parts (so a constraint containing
`==` twice or more is dropped), remove every whitespace character from both
parts, deduplicate. -/
def nodeSelectorAmended (s : OpenFaasFunctionSpec) : Option (List (String × String)) :=
  let constraints := s.get_constraints_vec
  if constraints.isEmpty then none
  else
    let pairs := constraints.filterMap (fun c =>
      match splitOnEqEq c with
      | [a, b] => some (remove_whitespace a, remove_whitespace b)
      | _ => none)
    some (btreeOfPairs (uniqueList pairs))

/-- A spec whose constraints separate the code's behavior from claim C8's
wording: a double `==` constraint and interior whitespace. -/
def specC8 : OpenFaasFunctionSpec :=
  { specEx with constraints := some ["a==b==c", "k 1==v 2"] }

/-- Counterexample to claim C8 as stated: `a==b==c` is dropped by the code
(it splits into three parts) though the claim maps it to `a ↦ b==c`, and
interior whitespace is removed by the code though the claim only strips the
sides. -/
theorem c8_node_selector_counterexample :
    specC8.to_node_selector = some [("k1", "v2")]
    ∧ nodeSelectorClaimed specC8 = some [("a", "b==c"), ("k 1", "v 2")]
    ∧ specC8.to_node_selector ≠ nodeSelectorClaimed specC8 := by
  decide

/-- The two-stage map-filter-map pipeline of the source equals the
single-pass characterization used by the amended claim. -/
theorem nodeSelector_pairs_eq (l : List String) :
    ((l.map (fun c => splitOnEqEq c)).filter (fun v => v.length == 2)).map
      (fun v => (remove_whitespace (v.headD ""), remove_whitespace (v.getD 1 "")))
    = l.filterMap (fun c =>
        match splitOnEqEq c with
        | [a, b] => some (remove_whitespace a, remove_whitespace b)
        | _ => none) := by
  induction l with
  | nil => rfl
  | cons c rest ih =>
    simp only [List.map_cons, List.filter_cons, List.filterMap_cons]
    rcases h : splitOnEqEq c with _ | ⟨a, _ | ⟨b, _ | ⟨d, t⟩⟩⟩ <;>
      · simp [h]
        simpa using ih

/-- Claim C8 (amended): the projected node selector splits every constraint
on `==`, keeps exactly the entries splitting into two parts (entries with
no `==`, or with `==` occurring more than once, are dropped silently),
removes all whitespace from both parts — so whitespace around `==` still
parses — and deduplicates. -/
theorem c8_node_selector_amended (s : OpenFaasFunctionSpec) :
    s.to_node_selector = nodeSelectorAmended s := by
  unfold OpenFaasFunctionSpec.to_node_selector nodeSelectorAmended
  simp only [nodeSelector_pairs_eq]

/-- Claim C9: the projected container environment is the `fprocess` entry
first (exactly when `env_process` is set) followed by the `env_vars`
entries in iteration order, and is a deterministic function of the spec. -/
theorem c9_env_deterministic :
    (∀ (s : OpenFaasFunctionSpec) (p : String), s.env_process = some p →
      s.toEnvVars = { name := s.to_env_process_name, value := some p } :: envVarEntries s)
    ∧ (∀ s : OpenFaasFunctionSpec, s.env_process = none →
        s.toEnvVars = envVarEntries s)
    ∧ (∀ s t : OpenFaasFunctionSpec, s = t → s.toEnvVars = t.toEnvVars) := by
  refine ⟨?_, ?_, ?_⟩
  · intro s p h
    simp [OpenFaasFunctionSpec.toEnvVars, h]
  · intro s h
    simp [OpenFaasFunctionSpec.toEnvVars, h]
  · intro s t h
    rw [h]

/-- The resource-namespace check passes when the declaration sits in the
configured namespace. -/
theorem check_resource_namespace_self (fns : String) (w : World) :
    check_resource_namespace fns fns w = (none, w, []) := by
  simp [check_resource_namespace]

/-- The function-namespace check passes when `spec.namespace` is unset or
equals the configured namespace. -/
theorem check_function_namespace_pass (fns : String) (crd : OpenFaaSFunction)
    (w : World) (h : crd.spec.nspace = none ∨ crd.spec.nspace = some fns) :
    check_function_namespace fns crd w = (none, w, []) := by
  rcases h with h | h <;> simp [check_function_namespace, h]

/-- A same-named Deployment without the controller owner reference stops the
pass with `DeploymentAlreadyExists`. -/
theorem check_existing_deployment_foreign (strategy : UpdateStrategy)
    (crd : OpenFaaSFunction) (oref : OwnerRef) (dep : K8sDeployment) (w : World)
    (hnot : ¬ oref ∈ dep.ownerRefs) :
    check_existing_deployment strategy crd oref dep w =
      .ok (some KAction.awaitChange)
        (replace_status w Reason.DeploymentAlreadyExists).1
        (replace_status w Reason.DeploymentAlreadyExists).2 := by
  have hc : ¬ (dep.ownerRefs.contains oref = true) := by simpa using hnot
  unfold check_existing_deployment
  rw [if_neg hc]

/-- An owned ready Deployment continues under the `Strategic` strategy with
no effect. -/
theorem check_existing_deployment_ready_strategic (crd : OpenFaaSFunction)
    (oref : OwnerRef) (dep : K8sDeployment) (w : World)
    (howned : oref ∈ dep.ownerRefs) (st : DeploymentStatus) (n : Int)
    (hst : dep.status = some st) (hrr : st.ready_replicas = some n) :
    check_existing_deployment UpdateStrategy.Strategic crd oref dep w =
      .ok none w [] := by
  simp [check_existing_deployment, howned, hst, hrr]

/-- The Deployment sweep preserves Services. -/
theorem delete_old_deployments_services (crd : OpenFaaSFunction)
    (oref : OwnerRef) (w : World) :
    (delete_old_deployments crd oref w).1.services = w.services := by
  simp [delete_old_deployments]

/-- The Deployment sweep preserves the persisted status. -/
theorem delete_old_deployments_status (crd : OpenFaaSFunction)
    (oref : OwnerRef) (w : World) :
    (delete_old_deployments crd oref w).1.crdStatus = w.crdStatus := by
  simp [delete_old_deployments]

/-- The Deployment sweep emits only Deployment deletions. -/
theorem delete_old_deployments_ops (crd : OpenFaaSFunction)
    (oref : OwnerRef) (w : World) :
    ∀ op ∈ (delete_old_deployments crd oref w).2, op.touchesServices = false := by
  intro op hop
  simp only [delete_old_deployments] at hop
  rcases List.mem_map.mp hop with ⟨d, _, rfl⟩
  rfl

/-- With no owned Deployment under a stale name, the Deployment sweep is a
no-op. -/
theorem delete_old_deployments_silent (crd : OpenFaaSFunction)
    (oref : OwnerRef) (w : World)
    (h : ∀ d ∈ w.deployments, oref ∈ d.ownerRefs → d.name = crd.spec.to_name) :
    delete_old_deployments crd oref w = (w, []) := by
  have h1 : w.deployments.filter
      (fun d => !(d.name != crd.spec.to_name && d.ownerRefs.contains oref)) =
      w.deployments := by
    rw [List.filter_eq_self]
    intro d hd
    by_cases ho : oref ∈ d.ownerRefs
    · have hname := h d hd ho
      simp [hname]
    · simp [ho]
  have h2 : w.deployments.filter
      (fun d => d.name != crd.spec.to_name && d.ownerRefs.contains oref) = [] := by
    rw [List.filter_eq_nil_iff]
    intro d hd
    by_cases ho : oref ∈ d.ownerRefs
    · have hname := h d hd ho
      simp [hname]
    · simp [ho]
  unfold delete_old_deployments
  rw [h1, h2]
  rfl

/-- Deployment subreconciler, foreign same-named Deployment: stop with
`DeploymentAlreadyExists` and no mutation. -/
theorem check_deployment_foreign (strategy : UpdateStrategy)
    (crd : OpenFaaSFunction) (w : World) (dep : K8sDeployment) (oref : OwnerRef)
    (horef : crd.controller_owner_ref = some oref)
    (hfind : w.deployments.find? (fun d => d.name == crd.spec.to_name) = some dep)
    (hnot : ¬ oref ∈ dep.ownerRefs) :
    check_deployment strategy crd w =
      .ok (some KAction.awaitChange)
        (replace_status w Reason.DeploymentAlreadyExists).1
        (replace_status w Reason.DeploymentAlreadyExists).2 := by
  have hexist := check_existing_deployment_foreign strategy crd oref dep w hnot
  simp [check_deployment, horef, hfind, hexist]

/-- Deployment subreconciler, owned ready Deployment under `Strategic`:
continue after the sweep. -/
theorem check_deployment_ready_strategic (crd : OpenFaaSFunction) (w : World)
    (dep : K8sDeployment) (oref : OwnerRef) (st : DeploymentStatus) (n : Int)
    (horef : crd.controller_owner_ref = some oref)
    (hfind : w.deployments.find? (fun d => d.name == crd.spec.to_name) = some dep)
    (howned : oref ∈ dep.ownerRefs)
    (hst : dep.status = some st) (hrr : st.ready_replicas = some n) :
    check_deployment UpdateStrategy.Strategic crd w =
      .ok none (delete_old_deployments crd oref w).1
        (delete_old_deployments crd oref w).2 := by
  have hexist := check_existing_deployment_ready_strategic crd oref dep w howned st n hst hrr
  simp [check_deployment, horef, hfind, hexist]

/-- An owned same-named Service continues with no effect. -/
theorem check_existing_service_owned (crd : OpenFaaSFunction) (oref : OwnerRef)
    (svc : K8sService) (w : World) (h : oref ∈ svc.ownerRefs) :
    check_existing_service crd oref svc w = (none, w, []) := by
  simp [check_existing_service, h]

/-- The Service sweep preserves the persisted status. -/
theorem delete_old_services_status (crd : OpenFaaSFunction)
    (oref : OwnerRef) (w : World) :
    (delete_old_services crd oref w).1.crdStatus = w.crdStatus := by
  simp [delete_old_services]

/-- With no owned Service under a stale name, the Service sweep is a
no-op. -/
theorem delete_old_services_silent (crd : OpenFaaSFunction)
    (oref : OwnerRef) (w : World)
    (h : ∀ s ∈ w.services, oref ∈ s.ownerRefs → s.name = crd.spec.to_name) :
    delete_old_services crd oref w = (w, []) := by
  have h1 : w.services.filter
      (fun s => !(s.name != crd.spec.to_name && s.ownerRefs.contains oref)) =
      w.services := by
    rw [List.filter_eq_self]
    intro s hs
    by_cases ho : oref ∈ s.ownerRefs
    · have hname := h s hs ho
      simp [hname]
    · simp [ho]
  have h2 : w.services.filter
      (fun s => s.name != crd.spec.to_name && s.ownerRefs.contains oref) = [] := by
    rw [List.filter_eq_nil_iff]
    intro s hs
    by_cases ho : oref ∈ s.ownerRefs
    · have hname := h s hs ho
      simp [hname]
    · simp [ho]
  unfold delete_old_services
  rw [h1, h2]
  rfl

/-- Service subreconciler, foreign same-named Service: stop with
`ServiceAlreadyExists` and no mutation. -/
theorem check_service_foreign (crd : OpenFaaSFunction) (w : World)
    (svc : K8sService) (oref : OwnerRef)
    (horef : crd.controller_owner_ref = some oref)
    (hfind : w.services.find? (fun s => s.name == crd.spec.to_name) = some svc)
    (hnot : ¬ oref ∈ svc.ownerRefs) :
    check_service crd w =
      .ok (some KAction.awaitChange)
        (replace_status w Reason.ServiceAlreadyExists).1
        (replace_status w Reason.ServiceAlreadyExists).2 := by
  have hx : check_existing_service crd oref svc w =
      (some KAction.awaitChange, (replace_status w Reason.ServiceAlreadyExists).1,
       (replace_status w Reason.ServiceAlreadyExists).2) := by
    simp [check_existing_service, hnot]
  simp [check_service, horef, hfind, hx]

/-- Service subreconciler, owned same-named Service: continue after the
sweep. -/
theorem check_service_owned (crd : OpenFaaSFunction) (w : World)
    (svc : K8sService) (oref : OwnerRef)
    (horef : crd.controller_owner_ref = some oref)
    (hfind : w.services.find? (fun s => s.name == crd.spec.to_name) = some svc)
    (howned : oref ∈ svc.ownerRefs) :
    check_service crd w =
      .ok none (delete_old_services crd oref w).1 (delete_old_services crd oref w).2 := by
  have hx := check_existing_service_owned crd oref svc w howned
  simp [check_service, horef, hfind, hx]

/-- Service subreconciler, absent Service: create it, continue, sweep. -/
theorem check_service_create (crd : OpenFaaSFunction) (w : World) (oref : OwnerRef)
    (horef : crd.controller_owner_ref = some oref)
    (hfind : w.services.find? (fun s => s.name == crd.spec.to_name) = none) :
    check_service crd w =
      .ok none
        (delete_old_services crd oref
          { w with services := w.services ++ [{ name := crd.spec.to_name, ownerRefs := [oref] }] }).1
        (Op.createService crd.spec.to_name ::
          (delete_old_services crd oref
            { w with services := w.services ++ [{ name := crd.spec.to_name, ownerRefs := [oref] }] }).2) := by
  simp [check_service, horef, hfind, create_service, serviceTryFromCrd]

/-- The status writer skips the write when the persisted status already
carries the target reason. -/
theorem replace_status_skip (w : World) (r : Reason) (h : w.crdStatus = some r) :
    replace_status w r = (w, []) := by
  simp [replace_status, h]

/-- Claim C3: the reconcile driver is exactly the chain resource-namespace
check → function-namespace check → Deployment subreconciler → Service
subreconciler → status-writer(`Ok`), short-circuiting at the first sub-step
returning an action, returning await-next-change when every sub-step
continues; and every error returned upward is answered with a requeue after
10 seconds. -/
theorem c3_driver_order_and_requeue :
    (∀ (strategy : UpdateStrategy) (fns : String) (crd : OpenFaaSFunction)
        (cns : String) (w : World),
      apply strategy fns crd cns w = applyChain strategy fns crd cns w)
    ∧ (∀ e : ReconcileError, on_error e = KAction.requeueSecs 10) := by
  refine ⟨?_, fun _ => rfl⟩
  intro strategy fns crd cns w
  unfold apply applyChain
  simp only [runSteps, stepResourceNamespace, stepFunctionNamespace,
    stepDeployment, stepService, stepReadyStatus]
  rcases h1 : check_resource_namespace fns cns w with ⟨a1, w1, ops1⟩
  simp only [h1]
  cases a1 with
  | some a => simp
  | none =>
    rcases h2 : check_function_namespace fns crd w1 with ⟨a2, w2, ops2⟩
    simp only [h2]
    cases a2 with
    | some a => simp
    | none =>
      cases h3 : check_deployment strategy crd w2 with
      | ok a3 w3 ops3 =>
        simp only [h3]
        cases a3 with
        | some a => simp
        | none =>
          cases h4 : check_service crd w3 with
          | ok a4 w4 ops4 =>
            simp only [h4]
            cases a4 with
            | some a => simp [List.append_assoc]
            | none =>
              rcases h5 : set_ready_status w4 with ⟨a5, w5, ops5⟩
              simp only [h5]
              cases a5 <;> simp [List.append_assoc]
          | err e4 w4 ops4 => simp [h4, List.append_assoc]
          | panic w4 ops4 => simp [h4, List.append_assoc]
      | err e3 w3 ops3 => simp [h3, List.append_assoc]
      | panic w3 ops3 => simp [h3, List.append_assoc]

/-- A cluster holding only a foreign Deployment named `echo`. -/
def foreignDepWorld : World :=
  { deployments := [foreignDepEx], services := [], secretNames := [],
    crdStatus := none }

/-- A cluster with an owned ready Deployment and a foreign Service, both
named `echo`. -/
def foreignSvcWorld : World :=
  { deployments := [readyDepEx], services := [foreignSvcEx], secretNames := [],
    crdStatus := none }

/-- A cluster with an owned ready Deployment and no Service. -/
def noSvcWorld : World :=
  { deployments := [readyDepEx], services := [], secretNames := [],
    crdStatus := none }

/-- Claim C4: a same-named Deployment or Service without the controller
owner reference is never created, replaced or deleted by the pass — the
pass stops with `DeploymentAlreadyExists` or `ServiceAlreadyExists`
respectively, leaving the cluster objects untouched, and the trace holds no
mutation of that object. -/
theorem c4_foreign_objects_untouched :
    (∀ (strategy : UpdateStrategy) (fns : String) (crd : OpenFaaSFunction)
        (w : World) (dep : K8sDeployment) (oref : OwnerRef),
      crd.controller_owner_ref = some oref →
      (crd.spec.nspace = none ∨ crd.spec.nspace = some fns) →
      w.deployments.find? (fun d => d.name == crd.spec.to_name) = some dep →
      ¬ oref ∈ dep.ownerRefs →
      ∃ w' ops, apply strategy fns crd fns w = .ok KAction.awaitChange w' ops
        ∧ w'.deployments = w.deployments
        ∧ w'.services = w.services
        ∧ w'.crdStatus = some Reason.DeploymentAlreadyExists
        ∧ ∀ op ∈ ops, op = Op.writeStatus Reason.DeploymentAlreadyExists)
    ∧ (∀ (fns : String) (crd : OpenFaaSFunction) (w : World)
        (dep : K8sDeployment) (svc : K8sService) (oref : OwnerRef)
        (st : DeploymentStatus) (n : Int),
      crd.controller_owner_ref = some oref →
      (crd.spec.nspace = none ∨ crd.spec.nspace = some fns) →
      w.deployments.find? (fun d => d.name == crd.spec.to_name) = some dep →
      oref ∈ dep.ownerRefs →
      dep.status = some st →
      st.ready_replicas = some n →
      w.services.find? (fun s => s.name == crd.spec.to_name) = some svc →
      ¬ oref ∈ svc.ownerRefs →
      ∃ w' ops, apply UpdateStrategy.Strategic fns crd fns w =
          .ok KAction.awaitChange w' ops
        ∧ w'.services = w.services
        ∧ w'.crdStatus = some Reason.ServiceAlreadyExists
        ∧ ∀ op ∈ ops, op.touchesServices = false) := by
  constructor
  · intro strategy fns crd w dep oref horef hns hfind hnot
    have hrn := check_resource_namespace_self fns w
    have hfn := check_function_namespace_pass fns crd w hns
    have hdep := check_deployment_foreign strategy crd w dep oref horef hfind hnot
    refine ⟨(replace_status w Reason.DeploymentAlreadyExists).1,
            (replace_status w Reason.DeploymentAlreadyExists).2, ?_,
            replace_status_fst_deployments w _, replace_status_fst_services w _,
            replace_status_fst_crdStatus w _, replace_status_ops w _⟩
    simp [apply, hrn, hfn, hdep]
  · intro fns crd w dep svc oref st n horef hns hfindd howned hst hrr hfinds hsnot
    have hrn := check_resource_namespace_self fns w
    have hfn := check_function_namespace_pass fns crd w hns
    have hdep := check_deployment_ready_strategic crd w dep oref st n horef hfindd howned hst hrr
    have hsvcfind : (delete_old_deployments crd oref w).1.services.find?
        (fun s => s.name == crd.spec.to_name) = some svc := by
      rw [delete_old_deployments_services]
      exact hfinds
    have hsvc := check_service_foreign crd (delete_old_deployments crd oref w).1
      svc oref horef hsvcfind hsnot
    refine ⟨(replace_status (delete_old_deployments crd oref w).1
              Reason.ServiceAlreadyExists).1,
            (delete_old_deployments crd oref w).2 ++
              (replace_status (delete_old_deployments crd oref w).1
                Reason.ServiceAlreadyExists).2,
            ?_, ?_, replace_status_fst_crdStatus _ _, ?_⟩
    · simp [apply, hrn, hfn, hdep, hsvc]
    · rw [replace_status_fst_services, delete_old_deployments_services]
    · intro op hop
      rcases List.mem_append.mp hop with hop | hop
      · exact delete_old_deployments_ops crd oref w op hop
      · rw [replace_status_ops _ _ op hop]
        rfl

/-- Witness for claim C4: a foreign Deployment and, separately, a foreign
Service named `echo` are left untouched while the matching status is
written. -/
theorem c4_foreign_objects_witness :
    (∃ w' ops, apply UpdateStrategy.OneWay "openfaas-fn" crdEx "openfaas-fn"
        foreignDepWorld = .ok KAction.awaitChange w' ops
      ∧ w'.deployments = foreignDepWorld.deployments
      ∧ w'.services = foreignDepWorld.services
      ∧ w'.crdStatus = some Reason.DeploymentAlreadyExists
      ∧ ∀ op ∈ ops, op = Op.writeStatus Reason.DeploymentAlreadyExists)
    ∧ (∃ w' ops, apply UpdateStrategy.Strategic "openfaas-fn" crdEx "openfaas-fn"
        foreignSvcWorld = .ok KAction.awaitChange w' ops
      ∧ w'.services = foreignSvcWorld.services
      ∧ w'.crdStatus = some Reason.ServiceAlreadyExists
      ∧ ∀ op ∈ ops, op.touchesServices = false) :=
  ⟨c4_foreign_objects_untouched.1 UpdateStrategy.OneWay "openfaas-fn" crdEx
      foreignDepWorld foreignDepEx orefEx rfl (Or.inl rfl) rfl (by decide),
   c4_foreign_objects_untouched.2 "openfaas-fn" crdEx foreignSvcWorld
      readyDepEx foreignSvcEx orefEx { ready_replicas := some 1 } 1 rfl
      (Or.inl rfl) rfl (by decide) rfl rfl rfl (by decide)⟩

/-- Claim C7: the status writer skips the API write whenever the persisted
status already carries the target reason; consequently a reconcile of a
fully converged cluster whose status is already `Ok` performs no API write
at all (in particular none on the status subresource). -/
theorem c7_status_writer_idempotent :
    (∀ (w : World) (r : Reason), w.crdStatus = some r → replace_status w r = (w, []))
    ∧ (∀ (fns : String) (crd : OpenFaaSFunction) (w : World)
        (dep : K8sDeployment) (svc : K8sService) (oref : OwnerRef)
        (st : DeploymentStatus) (n : Int),
      crd.controller_owner_ref = some oref →
      (crd.spec.nspace = none ∨ crd.spec.nspace = some fns) →
      w.deployments.find? (fun d => d.name == crd.spec.to_name) = some dep →
      oref ∈ dep.ownerRefs →
      dep.status = some st →
      st.ready_replicas = some n →
      (∀ d ∈ w.deployments, oref ∈ d.ownerRefs → d.name = crd.spec.to_name) →
      w.services.find? (fun s => s.name == crd.spec.to_name) = some svc →
      oref ∈ svc.ownerRefs →
      (∀ s ∈ w.services, oref ∈ s.ownerRefs → s.name = crd.spec.to_name) →
      w.crdStatus = some Reason.Ok →
      apply UpdateStrategy.Strategic fns crd fns w =
        .ok KAction.awaitChange w []) := by
  constructor
  · exact replace_status_skip
  · intro fns crd w dep svc oref st n horef hns hfindd howned hst hrr hdsil
      hfinds hsowned hssil hstatus
    have hrn := check_resource_namespace_self fns w
    have hfn := check_function_namespace_pass fns crd w hns
    have hdel := delete_old_deployments_silent crd oref w hdsil
    have hdep := check_deployment_ready_strategic crd w dep oref st n horef hfindd howned hst hrr
    rw [hdel] at hdep
    have hsdel := delete_old_services_silent crd oref w hssil
    have hsvc := check_service_owned crd w svc oref horef hfinds hsowned
    rw [hsdel] at hsvc
    have hready : set_ready_status w = (none, w, []) := by
      unfold set_ready_status
      rw [replace_status_skip w Reason.Ok hstatus]
    simp [apply, hrn, hfn, hdep, hsvc, hready]

/-- Witness for claim C7: on the converged cluster already carrying `Ok`,
the status writer skips and a whole reconcile pass is write-free. -/
theorem c7_status_writer_witness :
    replace_status convergedWorld Reason.Ok = (convergedWorld, [])
    ∧ apply UpdateStrategy.Strategic "openfaas-fn" crdEx "openfaas-fn"
        convergedWorld = .ok KAction.awaitChange convergedWorld [] :=
  ⟨c7_status_writer_idempotent.1 convergedWorld Reason.Ok rfl,
   c7_status_writer_idempotent.2 "openfaas-fn" crdEx convergedWorld readyDepEx
     svcEx orefEx { ready_replicas := some 1 } 1 rfl (Or.inl rfl) rfl
     (by decide) rfl rfl (by decide) rfl (by decide) (by decide) rfl⟩

/-- Claim C10: creating an absent Service returns a continuation (no status
write and no action), so the same pass proceeds to the Service sweep and
then writes the `Ok` status; Deployment creation, in contrast, ends the
pass with await-next-change. -/
theorem c10_service_creation_continues :
    (∀ (crd : OpenFaaSFunction) (w : World) (oref : OwnerRef),
      crd.controller_owner_ref = some oref →
      create_service crd w =
        .ok none { w with services := w.services ++ [{ name := crd.spec.to_name, ownerRefs := [oref] }] }
          [Op.createService crd.spec.to_name])
    ∧ (∀ (fns : String) (crd : OpenFaaSFunction) (w : World)
        (dep : K8sDeployment) (oref : OwnerRef) (st : DeploymentStatus) (n : Int),
      crd.controller_owner_ref = some oref →
      (crd.spec.nspace = none ∨ crd.spec.nspace = some fns) →
      w.deployments.find? (fun d => d.name == crd.spec.to_name) = some dep →
      oref ∈ dep.ownerRefs →
      dep.status = some st →
      st.ready_replicas = some n →
      (∀ d ∈ w.deployments, oref ∈ d.ownerRefs → d.name = crd.spec.to_name) →
      w.services.find? (fun s => s.name == crd.spec.to_name) = none →
      (∀ s ∈ w.services, ¬ oref ∈ s.ownerRefs) →
      w.crdStatus = none →
      apply UpdateStrategy.Strategic fns crd fns w =
        .ok KAction.awaitChange
          { w with services := w.services ++ [{ name := crd.spec.to_name, ownerRefs := [oref] }], crdStatus := some Reason.Ok }
          [Op.createService crd.spec.to_name, Op.writeStatus Reason.Ok])
    ∧ (∀ (crd : OpenFaaSFunction) (w : World) (oref : OwnerRef),
      crd.controller_owner_ref = some oref →
      crd.spec.secrets = none →
      crd.spec.limits = none →
      crd.spec.requests = none →
      create_deployment crd CreateDeploymentAction.Create w =
        .ok (some KAction.awaitChange)
          { w with deployments := w.deployments ++ [{ name := crd.spec.to_name, ownerRefs := [oref], status := none }] }
          [Op.createDeployment crd.spec.to_name]) := by
  refine ⟨?_, ?_, ?_⟩
  · intro crd w oref horef
    simp [create_service, serviceTryFromCrd, horef]
  · intro fns crd w dep oref st n horef hns hfindd howned hst hrr hdsil hfinds hsnone hstat
    have hrn := check_resource_namespace_self fns w
    have hfn := check_function_namespace_pass fns crd w hns
    have hdel := delete_old_deployments_silent crd oref w hdsil
    have hdep := check_deployment_ready_strategic crd w dep oref st n horef hfindd howned hst hrr
    rw [hdel] at hdep
    have hsweep : delete_old_services crd oref
        { w with services := w.services ++ [{ name := crd.spec.to_name, ownerRefs := [oref] }] } =
        ({ w with services := w.services ++ [{ name := crd.spec.to_name, ownerRefs := [oref] }] }, []) := by
      apply delete_old_services_silent
      intro s hs howns
      rcases List.mem_append.mp hs with hs | hs
      · exact absurd howns (hsnone s hs)
      · rw [List.mem_singleton.mp hs]
    have hsvc := check_service_create crd w oref horef hfinds
    rw [hsweep] at hsvc
    have hready : set_ready_status
        { w with services := w.services ++ [{ name := crd.spec.to_name, ownerRefs := [oref] }] } =
        (none,
         { w with services := w.services ++ [{ name := crd.spec.to_name, ownerRefs := [oref] }], crdStatus := some Reason.Ok },
         [Op.writeStatus Reason.Ok]) := by
      simp [set_ready_status, replace_status, hstat]
    simp [apply, hrn, hfn, hdep, hsvc, hready]
  · intro crd w oref horef hsec hlim hreq
    have hunique : crd.spec.get_secrets_unique_vec = [] := by
      simp [OpenFaasFunctionSpec.get_secrets_unique_vec, hsec, uniqueList, uniqueAux]
    have hcs : check_secrets crd w = (none, w, []) := by
      unfold check_secrets
      rw [hunique]
      simp
    have htry : deploymentTryFromCrd crd =
        Except.ok { name := crd.spec.to_name, ownerRefs := [oref], status := none } := by
      simp [deploymentTryFromCrd, horef, deploymentTryFromSpec,
        OpenFaasFunctionSpec.try_to_limits, OpenFaasFunctionSpec.try_to_requests,
        hlim, hreq]
    simp [create_deployment, hcs, htry]

/-- Witness for claim C10: with an owned ready Deployment and no Service,
one `Strategic` pass creates the Service, sweeps, and writes `Ok`; and a
bare Deployment creation stops the pass. -/
theorem c10_service_creation_witness :
    create_service crdEx noSvcWorld =
      .ok none { noSvcWorld with services := noSvcWorld.services ++ [{ name := "echo", ownerRefs := [orefEx] }] }
        [Op.createService "echo"]
    ∧ apply UpdateStrategy.Strategic "openfaas-fn" crdEx "openfaas-fn" noSvcWorld =
      .ok KAction.awaitChange
        { noSvcWorld with services := noSvcWorld.services ++ [{ name := "echo", ownerRefs := [orefEx] }], crdStatus := some Reason.Ok }
        [Op.createService "echo", Op.writeStatus Reason.Ok]
    ∧ create_deployment crdEx CreateDeploymentAction.Create emptyWorld =
      .ok (some KAction.awaitChange)
        { emptyWorld with deployments := emptyWorld.deployments ++ [{ name := "echo", ownerRefs := [orefEx], status := none }] }
        [Op.createDeployment "echo"] :=
  ⟨c10_service_creation_continues.1 crdEx noSvcWorld orefEx rfl,
   c10_service_creation_continues.2.1 "openfaas-fn" crdEx noSvcWorld readyDepEx
     orefEx { ready_replicas := some 1 } 1 rfl (Or.inl rfl) rfl (by decide) rfl
     rfl (by decide) rfl (by decide) rfl,
   c10_service_creation_continues.2.2 crdEx emptyWorld orefEx rfl rfl rfl rfl⟩

/-- Witness for claim C9 at a spec with both `env_process` and one
environment variable. -/
theorem c9_env_deterministic_witness :
    ({ specEx with env_process := some "python", env_vars := some [("A", "1")] } :
        OpenFaasFunctionSpec).toEnvVars =
      { name := "fprocess", value := some "python" } ::
        envVarEntries { specEx with env_process := some "python", env_vars := some [("A", "1")] } :=
  c9_env_deterministic.1 _ "python" rfl

end OperatoRs
